import Mathlib

/-!
Verification of the SimNets similarity operator registration layer
(`src/ops/similarity_op.cpp`) and of the similarity kernel it documents.

The shape-inference functions are embedded directly from the C++ source.
Tensor shapes are modelled as lists of known (concrete) dimension sizes;
the framework `Merge` of two known dimensions succeeds exactly when they are
equal.  An out-of-range `std::vector` subscript, which is undefined behaviour
in the C++ source, is modelled as the distinguished error `outOfRangeAccess`,
kept apart from the structured `invalidArgument` failures the code returns
deliberately.
-/

namespace SimnetsTF

/-- A tensor shape: the list of its dimension sizes.  The rank is the length. -/
abbrev Shape := List Int

/-- Result of a shape-inference call.  `invalidArgument` is the structured
failure status the code returns; `outOfRangeAccess` marks the undefined
behaviour of subscripting a `std::vector` past its end. -/
inductive ShapeError where
  | invalidArgument (msg : String)
  | outOfRangeAccess
deriving DecidableEq

/-- Modelled from the spec: `simnets_tf::GetSimnetsOutputSizeFromDims` lives in
`utils/im2col.hpp`, which is not among the sources.  The spec describes the
derived output extent as a formula over input extent, block size, stride and
padding, consistent with valid-style convolution sizing; the call site passes
`true` for the round-down flag, and the concrete scenarios of the spec pin
`out = (in + 2 * pad - block) / stride + 1` with floor division
(e.g. in = 4, block = 3, stride = 1, pad = 0 gives 2; pad = 1 gives 4). -/
def simnetsOutSize (inSize blockSize stride pad : Int) : Int :=
  (inSize + 2 * pad - blockSize) / stride + 1

/-- Embedding of `SimilarityShape` (similarity_op.cpp lines 8-53).  The checks
happen in source order: rank of input, rank of templates, arity of the strides
attribute, merge of the two channel dimensions; then `padding[0]` and
`padding[1]` are read without any arity check (lines 43-46), which is an
out-of-range access when the padding list is shorter than 2.  The `blocks`
attribute is fetched by the source (lines 17-18) but never used afterwards. -/
def SimilarityShape (input templates : Shape) (strides blocks padding : List Int) :
    Except ShapeError Shape :=
  if input.length ≠ 4 then
    .error (.invalidArgument "Shape must be rank 4")
  else if templates.length ≠ 4 then
    .error (.invalidArgument "Shape must be rank 4")
  else if strides.length ≠ 2 then
    .error (.invalidArgument "Similarity requires the stride attribute to contain 2 values")
  else if input.getD 1 0 ≠ templates.getD 1 0 then
    .error (.invalidArgument "Dimensions must be equal")
  else
    match padding.get? 0 with
    | none => .error .outOfRangeAccess
    | some pad0 =>
      match padding.get? 1 with
      | none => .error .outOfRangeAccess
      | some pad1 =>
        .ok [input.getD 0 0, templates.getD 0 0,
             simnetsOutSize (input.getD 2 0) (templates.getD 2 0) (strides.getD 0 0) pad0,
             simnetsOutSize (input.getD 3 0) (templates.getD 3 0) (strides.getD 1 0) pad1]

/-- Embedding of `SimilarityParametersGradShape` (lines 55-59): output 0 is the
shape of input 1 (`templates`), output 1 the shape of input 2 (`weights`). -/
def SimilarityParametersGradShape (input templates weights output_grad : Shape) :
    Except ShapeError (Shape × Shape) :=
  .ok (templates, weights)

/-- Modelled from the spec: `shape_inference::UnchangedShape` belongs to the
host graph framework, not to this repository.  Per the spec boundary contract
it propagates the shape of input 0 unchanged to output 0. -/
def UnchangedShape (input0 : Shape) : Except ShapeError Shape :=
  .ok input0

/-- Shape function of the registered op `SimilarityInputGrad` (lines 141-156):
`SetShapeFn(shape_inference::UnchangedShape)` applied to its first input. -/
def SimilarityInputGradShape (input templates weights input_grad : Shape) :
    Except ShapeError Shape :=
  UnchangedShape input

/-- Does a shape-inference result carry the structured invalid-argument
failure status? -/
def isInvalidArgument : Except ShapeError Shape → Bool
  | .error (.invalidArgument _) => true
  | _ => false

/-- Did shape inference succeed? -/
def isOk : Except ShapeError Shape → Bool
  | .ok _ => true
  | _ => false

/-- The failure condition exactly as the claim states it: wrong strides arity,
wrong rank, or the batch or in-channel dimensions of input and templates fail
to merge (unequal). -/
def claimedSimilarityFailure (input templates : Shape) (strides : List Int) : Bool :=
  decide (strides.length ≠ 2) || decide (input.length ≠ 4) || decide (templates.length ≠ 4) ||
    decide (input.getD 0 0 ≠ templates.getD 0 0) || decide (input.getD 1 0 ≠ templates.getD 1 0)

/-- One attribute of a registered op: its name, its type constraint and its
default value, transcribed from the `Attr` lines of the registration. -/
structure AttrDef where
  name : String
  typeSpec : String
  defaultVal : String
deriving DecidableEq

/-- The registration surface of an op: named inputs, named outputs, attribute
list and the shape-inference function installed by `SetShapeFn`. -/
structure OpDef where
  inputs : List (String × String)
  outputs : List (String × String)
  attrs : List AttrDef
  shapeFn : Shape → Shape → List Int → List Int → List Int → Except ShapeError Shape

/-- Registration of `REGISTER_OP("Similarity")` (lines 61-75), attribute list
transcribed line by line. -/
def opSimilarity : OpDef where
  inputs := [("input", "T"), ("templates", "T"), ("weights", "T")]
  outputs := [("output", "T")]
  attrs :=
    [⟨"T", "float32, float64", ""⟩,
     ⟨"similarity_function", "L1, L2", "L2"⟩,
     ⟨"blocks", "list(int)", "[3,3]"⟩,
     ⟨"strides", "list(int)", "[2,2]"⟩,
     ⟨"padding", "list(int)", "[0,0]"⟩,
     ⟨"normalization_term", "bool", "false"⟩,
     ⟨"normalization_term_fudge", "float", "0.001"⟩,
     ⟨"ignore_nan_input", "bool", "false"⟩,
     ⟨"out_of_bounds_value", "float", "0.0"⟩]
  shapeFn := SimilarityShape

/-- Registration of `REGISTER_OP("SimilarityRef")` (lines 125-139), attribute
list transcribed line by line from its own registration block. -/
def opSimilarityRef : OpDef where
  inputs := [("input", "T"), ("templates", "T"), ("weights", "T")]
  outputs := [("output", "T")]
  attrs :=
    [⟨"T", "float32, float64", ""⟩,
     ⟨"similarity_function", "L1, L2", "L2"⟩,
     ⟨"blocks", "list(int)", "[3,3]"⟩,
     ⟨"strides", "list(int)", "[2,2]"⟩,
     ⟨"padding", "list(int)", "[0,0]"⟩,
     ⟨"normalization_term", "bool", "false"⟩,
     ⟨"normalization_term_fudge", "float", "0.001"⟩,
     ⟨"ignore_nan_input", "bool", "false"⟩,
     ⟨"out_of_bounds_value", "float", "0.0"⟩]
  shapeFn := SimilarityShape

/-!
The similarity kernel.  The numerical kernel implementation is an external
file that is not among the sources (the spec notes that only the
shape/attribute declaration layer is given), so the kernel below is modelled
from the spec, sections 4.1 and 4.2.  Element values are rationals; a NaN
value is modelled as `none` of `Option ℚ`, so that an input tensor is a
function into `Option ℚ` and NaN propagation and the NaN-marginalization
policy can be stated exactly.
-/

/-- Sliding-window geometry (spec section 3): block size, stride and padding
for the two spatial dimensions. -/
structure Geometry where
  blockH : ℕ
  blockW : ℕ
  strideH : ℕ
  strideW : ℕ
  padH : ℕ
  padW : ℕ

/-- The similarity mode selecting the per-element distance function. -/
inductive SimMode where
  | L1
  | L2
deriving DecidableEq

/-- Configuration flags of one operation instance (spec section 3).  The field
`log2pi` stands for the value the host arithmetic library returns for
log(2*pi); the normalization term is stated relative to it. -/
structure Flags where
  normalizationTerm : Bool
  normalizationTermFudge : ℚ
  ignoreNanInput : Bool
  outOfBoundsValue : ℚ
  log2pi : ℚ

/-- Modelled from the spec (4.1): the input row sampled for output row `i` and
block offset `di`. -/
def inputRowOf (g : Geometry) (i di : ℕ) : ℤ :=
  g.strideH * i + di - g.padH

/-- Modelled from the spec (4.1): the input column sampled for output column
`j` and block offset `dj`. -/
def inputColOf (g : Geometry) (j dj : ℕ) : ℤ :=
  g.strideW * j + dj - g.padW

/-- Modelled from the spec (4.1): the virtual patch value.  Inside the input
extent the input tensor is read (possibly a NaN, i.e. `none`); outside it the
configured out-of-bounds value is used, which is an ordinary number. -/
def patchValue (inp : ℕ → ℕ → ℕ → ℕ → Option ℚ) (inH inW : ℕ) (oob : ℚ)
    (g : Geometry) (b dc i j di dj : ℕ) : Option ℚ :=
  let r := inputRowOf g i di
  let col := inputColOf g j dj
  if 0 ≤ r ∧ r < (inH : ℤ) ∧ 0 ≤ col ∧ col < (inW : ℤ) then
    inp b dc r.toNat col.toNat
  else
    some oob

/-- The pure patch sample used to state the forward formula for NaN-free
inputs: the value of `f` at the mapped coordinate, or the out-of-bounds value
when the coordinate falls outside the input extent. -/
def samplePure (f : ℕ → ℕ → ℕ → ℕ → ℚ) (inH inW : ℕ) (oob : ℚ)
    (g : Geometry) (b dc i j di dj : ℕ) : ℚ :=
  let r := inputRowOf g i di
  let col := inputColOf g j dj
  if 0 ≤ r ∧ r < (inH : ℤ) ∧ 0 ≤ col ∧ col < (inW : ℤ) then
    f b dc r.toNat col.toNat
  else
    oob

/-- Modelled from the spec (section 3): the per-element distance function,
L1 mapping (a, b) to -|a - b| and L2 mapping (a, b) to -(a - b)^2. -/
def phi : SimMode → ℚ → ℚ → ℚ
  | .L1, a, b => -|a - b|
  | .L2, a, b => -((a - b) ^ 2)

/-- The block offsets (dc, di, dj) in the iteration order of the kernel loop. -/
def offsetsList (cin bh bw : ℕ) : List (ℕ × ℕ × ℕ) :=
  (List.range cin).flatMap fun dc =>
    (List.range bh).flatMap fun di =>
      (List.range bw).map fun dj => (dc, di, dj)

/-- The set of block offsets (dc, di, dj) of one window. -/
def offsets (cin bh bw : ℕ) : Finset (ℕ × ℕ × ℕ) :=
  Finset.range cin ×ˢ Finset.range bh ×ˢ Finset.range bw

/-- Running state of the forward accumulation loop: the accumulated sum, the
count of accumulated (active) elements, and whether a NaN was met while the
NaN-ignore policy is off. -/
structure Acc where
  sum : ℚ
  count : ℕ
  sawNan : Bool
deriving DecidableEq

/-- Modelled from the spec (4.2 steps 1-2): one accumulation step.  A numeric
patch value contributes weight times distance and counts as active; a NaN
patch value is skipped (excluded from sum and count) under the NaN-ignore
policy and otherwise poisons the result. -/
def simStep (flags : Flags) (mode : SimMode) (t w : ℚ) (patch : Option ℚ) (a : Acc) : Acc :=
  match patch with
  | some v => ⟨a.sum + w * phi mode t v, a.count + 1, a.sawNan⟩
  | none => if flags.ignoreNanInput then a else ⟨a.sum, a.count, true⟩

/-- The contribution of one block offset to the accumulated sum: weight times
distance for a numeric patch value, nothing for a NaN one. -/
def offsetTerm (mode : SimMode) (t w : ℚ) (patch : Option ℚ) : ℚ :=
  match patch with
  | some v => w * phi mode t v
  | none => 0

/-- Modelled from the spec (4.2 step 1): the accumulation loop over all block
offsets for output element (b, c, i, j). -/
def forwardAcc (inp : ℕ → ℕ → ℕ → ℕ → Option ℚ) (templates weights : ℕ → ℕ → ℕ → ℕ → ℚ)
    (inH inW cin : ℕ) (g : Geometry) (mode : SimMode) (flags : Flags)
    (b c i j : ℕ) : Acc :=
  (offsetsList cin g.blockH g.blockW).foldl
    (fun a x =>
      simStep flags mode (templates c x.1 x.2.1 x.2.2) (weights c x.1 x.2.1 x.2.2)
        (patchValue inp inH inW flags.outOfBoundsValue g b x.1 i j x.2.1 x.2.2) a)
    ⟨0, 0, false⟩

/-- Modelled from the spec (4.2 step 3): the optional Gaussian normalization
term -0.5 * K * log(2*pi) for an active element count K. -/
def normTerm (flags : Flags) (k : ℕ) : ℚ :=
  if flags.normalizationTerm then -(1 / 2 : ℚ) * k * flags.log2pi else 0

/-- Modelled from the spec (4.2 steps 1-4): one forward output element.  When
a NaN was met with the NaN-ignore policy off, the output is NaN; otherwise it
is the accumulated sum plus the optional normalization term for the active
element count. -/
def forwardElem (inp : ℕ → ℕ → ℕ → ℕ → Option ℚ) (templates weights : ℕ → ℕ → ℕ → ℕ → ℚ)
    (inH inW cin : ℕ) (g : Geometry) (mode : SimMode) (flags : Flags)
    (b c i j : ℕ) : Option ℚ :=
  let a := forwardAcc inp templates weights inH inW cin g mode flags b c i j
  if a.sawNan then none else some (a.sum + normTerm flags a.count)

/-! Helper lemmas about the accumulation loop and the offset enumeration. -/

theorem simStep_some (flags : Flags) (mode : SimMode) (t w v : ℚ) (a : Acc) :
    simStep flags mode t w (some v) a = ⟨a.sum + w * phi mode t v, a.count + 1, a.sawNan⟩ :=
  rfl

theorem simStep_none (flags : Flags) (mode : SimMode) (t w : ℚ) (a : Acc) :
    simStep flags mode t w none a =
      if flags.ignoreNanInput then a else ⟨a.sum, a.count, true⟩ :=
  rfl

theorem foldl_simStep (flags : Flags) (mode : SimMode)
    (T W : ℕ × ℕ × ℕ → ℚ) (P : ℕ × ℕ × ℕ → Option ℚ)
    (l : List (ℕ × ℕ × ℕ)) (s : ℚ) (k : ℕ) (sn : Bool) :
    l.foldl (fun a x => simStep flags mode (T x) (W x) (P x) a) ⟨s, k, sn⟩ =
      ⟨s + (l.map fun x => offsetTerm mode (T x) (W x) (P x)).sum,
       k + (l.map fun x => if (P x).isSome then 1 else 0).sum,
       sn || (!flags.ignoreNanInput && l.any fun x => (P x).isNone)⟩ := by
  induction l generalizing s k sn with
  | nil => simp
  | cons y ys ih =>
    simp only [List.foldl_cons, List.map_cons, List.sum_cons, List.any_cons]
    cases hP : P y with
    | some v =>
      rw [simStep_some, ih]
      simp [offsetTerm, add_assoc]
    | none =>
      rw [simStep_none]
      cases hig : flags.ignoreNanInput with
      | true =>
        rw [if_pos rfl, ih]
        simp [offsetTerm, hig]
      | false =>
        rw [if_neg (by simp), ih]
        simp [offsetTerm, hig]

theorem sum_map_range {M : Type} [AddCommMonoid M] (n : ℕ) (f : ℕ → M) :
    ((List.range n).map f).sum = ∑ i in Finset.range n, f i := by
  induction n with
  | zero => simp
  | succ k ih =>
    rw [List.range_succ]
    simp [Finset.sum_range_succ, ih]

theorem sum_map_flatMap {α β M : Type} [AddCommMonoid M]
    (l : List α) (g : α → List β) (F : β → M) :
    ((l.flatMap g).map F).sum = (l.map fun x => ((g x).map F).sum).sum := by
  induction l with
  | nil => simp
  | cons y ys ih => simp [List.flatMap_cons, List.map_append, List.sum_append, ih]

theorem sum_map_offsetsList {M : Type} [AddCommMonoid M]
    (cin bh bw : ℕ) (F : ℕ × ℕ × ℕ → M) :
    ((offsetsList cin bh bw).map F).sum =
      ∑ dc in Finset.range cin, ∑ di in Finset.range bh, ∑ dj in Finset.range bw,
        F (dc, di, dj) := by
  rw [offsetsList, sum_map_flatMap, sum_map_range]
  refine Finset.sum_congr rfl fun dc _ => ?_
  rw [sum_map_flatMap, sum_map_range]
  refine Finset.sum_congr rfl fun di _ => ?_
  rw [List.map_map, sum_map_range]
  rfl

theorem sum_offsets {M : Type} [AddCommMonoid M] (cin bh bw : ℕ) (F : ℕ × ℕ × ℕ → M) :
    ∑ x in offsets cin bh bw, F x =
      ∑ dc in Finset.range cin, ∑ di in Finset.range bh, ∑ dj in Finset.range bw,
        F (dc, di, dj) := by
  rw [offsets, Finset.sum_product]
  refine Finset.sum_congr rfl fun dc _ => ?_
  rw [Finset.sum_product]

theorem sum_offsetsList_eq (cin bh bw : ℕ) (F : ℕ × ℕ × ℕ → ℚ) :
    ((offsetsList cin bh bw).map F).sum = ∑ x in offsets cin bh bw, F x := by
  rw [sum_map_offsetsList, sum_offsets]

theorem mem_offsetsList (cin bh bw : ℕ) (x : ℕ × ℕ × ℕ) :
    x ∈ offsetsList cin bh bw ↔ x.1 < cin ∧ x.2.1 < bh ∧ x.2.2 < bw := by
  obtain ⟨dc, di, dj⟩ := x
  simp only [offsetsList, List.mem_flatMap, List.mem_map, List.mem_range]
  constructor
  · rintro ⟨a, ha, b', hb, c', hc, h⟩
    obtain ⟨h1, h2, h3⟩ := Prod.mk.injEq .. ▸ h
    · exact ⟨h1 ▸ ha, by simpa [← h] using ⟨hb, hc⟩⟩
  · rintro ⟨h1, h2, h3⟩
    exact ⟨dc, h1, di, h2, dj, h3, rfl⟩

theorem mem_offsets (cin bh bw : ℕ) (x : ℕ × ℕ × ℕ) :
    x ∈ offsets cin bh bw ↔ x.1 < cin ∧ x.2.1 < bh ∧ x.2.2 < bw := by
  simp [offsets, Finset.mem_product]

theorem count_eq_card_filter (cin bh bw : ℕ) (P : ℕ × ℕ × ℕ → Option ℚ) :
    ((offsetsList cin bh bw).map fun x => if (P x).isSome then 1 else 0).sum =
      ((offsets cin bh bw).filter fun x => (P x).isSome).card := by
  rw [Finset.card_filter, sum_offsets, sum_map_offsetsList]

theorem patchValue_total (inp : ℕ → ℕ → ℕ → ℕ → Option ℚ) (f : ℕ → ℕ → ℕ → ℕ → ℚ)
    (hinp : ∀ b dc r w, inp b dc r w = some (f b dc r w))
    (inH inW : ℕ) (oob : ℚ) (g : Geometry) (b dc i j di dj : ℕ) :
    patchValue inp inH inW oob g b dc i j di dj =
      some (samplePure f inH inW oob g b dc i j di dj) := by
  by_cases h : 0 ≤ inputRowOf g i di ∧ inputRowOf g i di < (inH : ℤ) ∧
      0 ≤ inputColOf g j dj ∧ inputColOf g j dj < (inW : ℤ)
  · simp [patchValue, samplePure, h, hinp]
  · simp [patchValue, samplePure, h]

theorem getD_of_get?_eq (l : List Int) (n : ℕ) (a d : Int) (h : l.get? n = some a) :
    l.getD n d = a := by
  simp only [List.get?_eq_getElem?] at h
  simp [List.getD_eq_getElem?_getD, h]

/-! Claim theorems for the shape-inference layer. -/

/-- Claim C2, counterexample: the claim counts a batch mismatch between input
and templates among the invalid-argument failures, but `SimilarityShape` only
merges the in-channel dimensions.  With input [2,3,4,4] and templates
[5,3,3,3] the leading dimensions differ (2 vs 5), yet shape inference
succeeds, so the claimed equivalence is false at this input. -/
theorem similarityShape_batch_claim_counterexample :
    ¬ (isInvalidArgument (SimilarityShape [2, 3, 4, 4] [5, 3, 3, 3] [1, 1] [3, 3] [0, 0]) = true ↔
       claimedSimilarityFailure [2, 3, 4, 4] [5, 3, 3, 3] [1, 1] = true) := by
  decide

/-- Claim C2 (amended): provided the padding attribute has at least 2 values,
`SimilarityShape` fails with an invalid-argument error exactly when the
strides attribute does not contain exactly 2 values, or input or templates is
not rank 4, or the in-channel dimensions (dimension 1 of each) fail to merge;
in every other case it succeeds.  The batch dimension is not checked. -/
theorem similarityShape_invalid_iff
    (input templates : Shape) (strides blocks padding : List Int)
    (hpad : 2 ≤ padding.length) :
    (isInvalidArgument (SimilarityShape input templates strides blocks padding) = true ↔
      (strides.length ≠ 2 ∨ input.length ≠ 4 ∨ templates.length ≠ 4 ∨
        input.getD 1 0 ≠ templates.getD 1 0)) ∧
    (isOk (SimilarityShape input templates strides blocks padding) = true ↔
      ¬ (strides.length ≠ 2 ∨ input.length ≠ 4 ∨ templates.length ≠ 4 ∨
        input.getD 1 0 ≠ templates.getD 1 0)) := by
  rcases padding with _ | ⟨p0, tail⟩
  · simp at hpad
  rcases tail with _ | ⟨p1, rest⟩
  · simp at hpad
  unfold SimilarityShape
  simp only [List.get?]
  split_ifs with h1 h2 h3 h4 <;> simp_all [isInvalidArgument, isOk]

/-- Witness for claim C2: a concrete well-formed invocation on which the
amended classification yields success. -/
theorem similarityShape_invalid_iff_witness :
    isOk (SimilarityShape [1, 1, 4, 4] [1, 1, 3, 3] [1, 1] [3, 3] [0, 0]) = true :=
  ((similarityShape_invalid_iff [1, 1, 4, 4] [1, 1, 3, 3] [1, 1] [3, 3] [0, 0]
      (by decide)).2).mpr (by decide)

/-- Claim C3: whenever `SimilarityShape` succeeds, the inferred output shape
is [batch, out_channels, output_h, output_w] with batch taken from dimension
0 of the input shape and out_channels from dimension 0 of the templates
shape. -/
theorem similarityShape_batch_and_depth
    (input templates : Shape) (strides blocks padding : List Int) (out : Shape)
    (h : SimilarityShape input templates strides blocks padding = .ok out) :
    ∃ oh ow, out = [input.getD 0 0, templates.getD 0 0, oh, ow] := by
  unfold SimilarityShape at h
  split_ifs at h
  split at h
  · cases h
  · split at h
    · cases h
    · injection h with h'
      exact ⟨_, _, h'.symm⟩

/-- Witness for claim C3 at input [2,3,4,4], templates [5,3,3,3]. -/
theorem similarityShape_batch_and_depth_witness :
    ∃ oh ow, ([2, 5, 2, 2] : Shape) = [2, 5, oh, ow] :=
  similarityShape_batch_and_depth [2, 3, 4, 4] [5, 3, 3, 3] [1, 1] [3, 3] [0, 0]
    [2, 5, 2, 2] rfl

/-- Claim C4, counterexample: no function of (in_h, block_h from the blocks
attribute, stride_h, pad_h) gives the inferred output height, because the
code takes the block extent from the templates shape (dimensions 2 and 3)
while the blocks attribute is never used: two invocations sharing in_h = 4,
blocks = [3,3], strides = [1,1] and padding = [0,0] but with template
spatial extents 3 and 1 infer output heights 2 and 4 respectively. -/
theorem similarityShape_blocks_counterexample :
    ¬ ∃ f : Int → Int → Int → Int → Int,
      ∀ (input templates : Shape) (strides blocks padding : List Int) (out : Shape),
        SimilarityShape input templates strides blocks padding = .ok out →
        out.getD 2 0 =
          f (input.getD 2 0) (blocks.getD 0 0) (strides.getD 0 0) (padding.getD 0 0) := by
  rintro ⟨f, hf⟩
  have h1 := hf [1, 1, 4, 4] [1, 1, 3, 3] [1, 1] [3, 3] [0, 0] [1, 1, 2, 2] rfl
  have h2 := hf [1, 1, 4, 4] [1, 1, 1, 1] [1, 1] [3, 3] [0, 0] [1, 1, 4, 4] rfl
  exact absurd (h1.trans h2.symm) (by decide)

/-- Claim C4 (amended): whenever `SimilarityShape` succeeds, the output
spatial dimensions are the sizing formula applied to the input extent, the
block extent taken from the templates shape (dimensions 2 and 3), the stride
and the padding; the blocks attribute plays no role. -/
theorem similarityShape_spatial_from_templates
    (input templates : Shape) (strides blocks padding : List Int) (out : Shape)
    (h : SimilarityShape input templates strides blocks padding = .ok out) :
    out.getD 2 0 = simnetsOutSize (input.getD 2 0) (templates.getD 2 0)
        (strides.getD 0 0) (padding.getD 0 0) ∧
    out.getD 3 0 = simnetsOutSize (input.getD 3 0) (templates.getD 3 0)
        (strides.getD 1 0) (padding.getD 1 0) := by
  unfold SimilarityShape at h
  split_ifs at h
  split at h
  · cases h
  · rename_i p0 hp0
    split at h
    · cases h
    · rename_i p1 hp1
      injection h with h'
      rw [← h', getD_of_get?_eq padding 0 p0 0 hp0, getD_of_get?_eq padding 1 p1 0 hp1]
      exact ⟨rfl, rfl⟩

/-- Witness for claim C4 (amended) at a concrete invocation. -/
theorem similarityShape_spatial_from_templates_witness :
    ([1, 1, 2, 2] : Shape).getD 2 0 = simnetsOutSize 4 3 1 0 ∧
    ([1, 1, 2, 2] : Shape).getD 3 0 = simnetsOutSize 4 3 1 0 :=
  similarityShape_spatial_from_templates [1, 1, 4, 4] [1, 1, 3, 3] [1, 1] [3, 3] [0, 0]
    [1, 1, 2, 2] rfl

/-- Claim C5: `SimilarityParametersGradShape` always returns the shape of its
second input (`templates`) as the shape of `templates_grad` and the shape of
its third input (`weights`) as the shape of `weights_grad`, whatever the
batch or spatial sizes are. -/
theorem similarityParametersGrad_passthrough (input templates weights output_grad : Shape) :
    SimilarityParametersGradShape input templates weights output_grad =
      .ok (templates, weights) :=
  rfl

/-- Claim C6: the shape function of `SimilarityInputGrad` returns exactly the
shape of its first input (`input`). -/
theorem similarityInputGrad_unchanged (input templates weights input_grad : Shape) :
    SimilarityInputGradShape input templates weights input_grad = .ok input :=
  rfl

/-- Claim C7: `SimilarityRef` is registered with the same inputs, outputs,
attribute set (names, type constraints, defaults) and the same shape
function as `Similarity`. -/
theorem similarityRef_same_contract :
    opSimilarityRef.inputs = opSimilarity.inputs ∧
    opSimilarityRef.outputs = opSimilarity.outputs ∧
    opSimilarityRef.attrs = opSimilarity.attrs ∧
    opSimilarityRef.shapeFn = opSimilarity.shapeFn :=
  ⟨rfl, rfl, rfl, rfl⟩

/-- Claim C10: on an invocation that passes the rank, strides-arity and
channel-merge checks, a padding attribute with fewer than 2 values makes
`SimilarityShape` perform an out-of-range vector access (undefined behaviour
in the C++ source) instead of returning an invalid-argument error. -/
theorem similarityShape_padding_out_of_range
    (input templates : Shape) (strides blocks padding : List Int)
    (h1 : input.length = 4) (h2 : templates.length = 4) (h3 : strides.length = 2)
    (h4 : input.getD 1 0 = templates.getD 1 0) (h5 : padding.length < 2) :
    SimilarityShape input templates strides blocks padding = .error .outOfRangeAccess := by
  unfold SimilarityShape
  rw [if_neg (fun hne => hne h1), if_neg (fun hne => hne h2), if_neg (fun hne => hne h3),
    if_neg (fun hne => hne h4)]
  rcases padding with _ | ⟨p0, _ | ⟨p1, rest⟩⟩
  · rfl
  · rfl
  · exact absurd h5 (by simp only [List.length_cons]; omega)

/-- Witness for claim C10: the empty padding list on an otherwise valid
invocation hits the out-of-range access. -/
theorem similarityShape_padding_out_of_range_witness :
    SimilarityShape [1, 1, 4, 4] [1, 1, 3, 3] [1, 1] [3, 3] [] = .error .outOfRangeAccess :=
  similarityShape_padding_out_of_range [1, 1, 4, 4] [1, 1, 3, 3] [1, 1] [3, 3] []
    rfl rfl rfl rfl (by decide)

theorem forwardElem_eq (inp : ℕ → ℕ → ℕ → ℕ → Option ℚ)
    (templates weights : ℕ → ℕ → ℕ → ℕ → ℚ)
    (inH inW cin : ℕ) (g : Geometry) (mode : SimMode) (flags : Flags) (b c i j : ℕ) :
    forwardElem inp templates weights inH inW cin g mode flags b c i j =
      if !flags.ignoreNanInput &&
          ((offsetsList cin g.blockH g.blockW).any fun x =>
            (patchValue inp inH inW flags.outOfBoundsValue g b x.1 i j x.2.1 x.2.2).isNone) then
        none
      else
        some (((offsetsList cin g.blockH g.blockW).map fun x =>
            offsetTerm mode (templates c x.1 x.2.1 x.2.2) (weights c x.1 x.2.1 x.2.2)
              (patchValue inp inH inW flags.outOfBoundsValue g b x.1 i j x.2.1 x.2.2)).sum +
          normTerm flags (((offsetsList cin g.blockH g.blockW).map fun x =>
            if (patchValue inp inH inW flags.outOfBoundsValue g b x.1 i j x.2.1 x.2.2).isSome
            then 1 else 0).sum)) := by
  unfold forwardElem forwardAcc
  rw [foldl_simStep]
  simp only [Bool.false_or, zero_add]

/-! Claim theorems for the forward similarity kernel. -/

/-- Claim C1: for a NaN-free input, with the normalization term off, the
forward output at (b, c, i, j) equals the sum over all block offsets
(dc, di, dj) of weights[c,dc,di,dj] times the elementwise distance phi
between templates[c,dc,di,dj] and the patch value sampled at input
coordinate (stride_h * i + di - pad_h, stride_w * j + dj - pad_w), a
coordinate outside the input extent yielding the out-of-bounds value. -/
theorem similarity_forward_formula
    (inp : ℕ → ℕ → ℕ → ℕ → Option ℚ) (f : ℕ → ℕ → ℕ → ℕ → ℚ)
    (templates weights : ℕ → ℕ → ℕ → ℕ → ℚ)
    (inH inW cin : ℕ) (g : Geometry) (mode : SimMode) (flags : Flags) (b c i j : ℕ)
    (hinp : ∀ b' dc r w', inp b' dc r w' = some (f b' dc r w'))
    (hnorm : flags.normalizationTerm = false) :
    forwardElem inp templates weights inH inW cin g mode flags b c i j =
      some (∑ dc in Finset.range cin, ∑ di in Finset.range g.blockH,
        ∑ dj in Finset.range g.blockW,
          weights c dc di dj *
            phi mode (templates c dc di dj)
              (samplePure f inH inW flags.outOfBoundsValue g b dc i j di dj)) := by
  rw [forwardElem_eq]
  have hany : ((offsetsList cin g.blockH g.blockW).any fun x =>
      (patchValue inp inH inW flags.outOfBoundsValue g b x.1 i j x.2.1 x.2.2).isNone) = false := by
    rw [List.any_eq_false]
    intro x hx
    simp [patchValue_total inp f hinp]
  rw [hany, Bool.and_false, if_neg (by simp)]
  simp only [normTerm, hnorm, Bool.false_eq_true, if_false, add_zero]
  rw [sum_map_offsetsList]
  simp only [patchValue_total inp f hinp, offsetTerm]

/-- Witness for claim C1: the concrete scenario of the spec, a 4 x 4
all-ones input against a 3 x 3 all-zeros template with all-ones weights in
L2 mode. -/
theorem similarity_forward_formula_witness :
    forwardElem (fun _ _ _ _ => some 1) (fun _ _ _ _ => 0) (fun _ _ _ _ => 1)
        4 4 1 ⟨3, 3, 1, 1, 0, 0⟩ SimMode.L2 ⟨false, 1 / 1000, false, 0, 0⟩ 0 0 0 0 =
      some (∑ dc in Finset.range 1, ∑ di in Finset.range 3, ∑ dj in Finset.range 3,
        (1 : ℚ) * phi SimMode.L2 0
          (samplePure (fun _ _ _ _ => 1) 4 4 0 ⟨3, 3, 1, 1, 0, 0⟩ 0 dc 0 0 di dj)) :=
  similarity_forward_formula (fun _ _ _ _ => some 1) (fun _ _ _ _ => 1)
    (fun _ _ _ _ => 0) (fun _ _ _ _ => 1) 4 4 1 ⟨3, 3, 1, 1, 0, 0⟩ SimMode.L2
    ⟨false, 1 / 1000, false, 0, 0⟩ 0 0 0 0 (fun _ _ _ _ => rfl) rfl

/-- Claim C8: with the NaN-ignore policy on, the forward output equals the
output computed by excluding exactly the NaN positions P from both the
accumulated sum and the active count K, and the output is NaN only if every
position covered by the window is NaN (in fact it never is NaN). -/
theorem similarity_forward_nan_exclusion
    (inp : ℕ → ℕ → ℕ → ℕ → Option ℚ) (templates weights : ℕ → ℕ → ℕ → ℕ → ℚ)
    (inH inW cin : ℕ) (g : Geometry) (mode : SimMode)
    (nt : Bool) (fudge oob l2p : ℚ) (b c i j : ℕ)
    (P : Finset (ℕ × ℕ × ℕ))
    (hP : P = (offsets cin g.blockH g.blockW).filter
      (fun x => patchValue inp inH inW oob g b x.1 i j x.2.1 x.2.2 = none)) :
    forwardElem inp templates weights inH inW cin g mode ⟨nt, fudge, true, oob, l2p⟩ b c i j =
      some ((∑ x in offsets cin g.blockH g.blockW \ P,
          offsetTerm mode (templates c x.1 x.2.1 x.2.2) (weights c x.1 x.2.1 x.2.2)
            (patchValue inp inH inW oob g b x.1 i j x.2.1 x.2.2)) +
        normTerm ⟨nt, fudge, true, oob, l2p⟩
          ((offsets cin g.blockH g.blockW).card - P.card)) ∧
    (forwardElem inp templates weights inH inW cin g mode
        ⟨nt, fudge, true, oob, l2p⟩ b c i j = none →
      ∀ x ∈ offsets cin g.blockH g.blockW,
        patchValue inp inH inW oob g b x.1 i j x.2.1 x.2.2 = none) := by
  have hPsub : P ⊆ offsets cin g.blockH g.blockW := by
    rw [hP]; exact Finset.filter_subset _ _
  have hmain : forwardElem inp templates weights inH inW cin g mode
      ⟨nt, fudge, true, oob, l2p⟩ b c i j =
      some ((∑ x in offsets cin g.blockH g.blockW \ P,
          offsetTerm mode (templates c x.1 x.2.1 x.2.2) (weights c x.1 x.2.1 x.2.2)
            (patchValue inp inH inW oob g b x.1 i j x.2.1 x.2.2)) +
        normTerm ⟨nt, fudge, true, oob, l2p⟩
          ((offsets cin g.blockH g.blockW).card - P.card)) := by
    rw [forwardElem_eq]
    rw [if_neg (by simp)]
    refine congrArg some ?_
    have hsum : ((offsetsList cin g.blockH g.blockW).map fun x =>
        offsetTerm mode (templates c x.1 x.2.1 x.2.2) (weights c x.1 x.2.1 x.2.2)
          (patchValue inp inH inW oob g b x.1 i j x.2.1 x.2.2)).sum =
        ∑ x in offsets cin g.blockH g.blockW \ P,
          offsetTerm mode (templates c x.1 x.2.1 x.2.2) (weights c x.1 x.2.1 x.2.2)
            (patchValue inp inH inW oob g b x.1 i j x.2.1 x.2.2) := by
      rw [sum_offsetsList_eq]
      refine (Finset.sum_subset Finset.sdiff_subset fun x hx hnx => ?_).symm
      have hxP : x ∈ P := by
        by_contra hc
        exact hnx (Finset.mem_sdiff.mpr ⟨hx, hc⟩)
      have hxnone := (Finset.mem_filter.mp (hP ▸ hxP)).2
      simp [offsetTerm, hxnone]
    have hfilter : (offsets cin g.blockH g.blockW).filter
        (fun x => (patchValue inp inH inW oob g b x.1 i j x.2.1 x.2.2).isSome) =
        offsets cin g.blockH g.blockW \ P := by
      rw [hP, ← Finset.filter_not]
      exact Finset.filter_congr fun x _ => by simp [Option.isSome_iff_ne_none]
    have hcount : ((offsetsList cin g.blockH g.blockW).map fun x =>
        if (patchValue inp inH inW oob g b x.1 i j x.2.1 x.2.2).isSome
        then 1 else 0).sum =
        (offsets cin g.blockH g.blockW).card - P.card := by
      rw [count_eq_card_filter, hfilter, Finset.card_sdiff hPsub]
    rw [hsum, hcount]
  refine ⟨hmain, fun hnone => ?_⟩
  rw [hmain] at hnone
  cases hnone

/-- Witness for claim C8: a 1 x 2 window over an input whose first column is
NaN, with the NaN-ignore policy on; P is the single NaN offset. -/
theorem similarity_forward_nan_exclusion_witness :
    forwardElem (fun _ _ _ w => if w = 0 then none else some 1) (fun _ _ _ _ => 0)
        (fun _ _ _ _ => 1) 1 2 1 ⟨1, 2, 1, 1, 0, 0⟩ SimMode.L2
        ⟨false, 0, true, 0, 0⟩ 0 0 0 0 =
      some ((∑ x in offsets 1 1 2 \ {(0, 0, 0)},
          offsetTerm SimMode.L2 0 1
            (patchValue (fun _ _ _ w => if w = 0 then none else some 1) 1 2 0
              ⟨1, 2, 1, 1, 0, 0⟩ 0 x.1 0 0 x.2.1 x.2.2)) +
        normTerm ⟨false, 0, true, 0, 0⟩
          ((offsets 1 1 2).card - ({(0, 0, 0)} : Finset (ℕ × ℕ × ℕ)).card)) :=
  (similarity_forward_nan_exclusion (fun _ _ _ w => if w = 0 then none else some 1)
    (fun _ _ _ _ => 0) (fun _ _ _ _ => 1) 1 2 1 ⟨1, 2, 1, 1, 0, 0⟩ SimMode.L2
    false 0 0 0 0 0 0 0 {(0, 0, 0)} (by decide)).1

/-- Claim C9: switching the normalization-term flag on adds exactly
-0.5 * K * log(2*pi) to each output element, where K is the active element
count: the full block size Cin * Bh * Bw, or the count of non-NaN covered
elements when the NaN-ignore policy is also on. -/
theorem similarity_normalization_adds_term
    (inp : ℕ → ℕ → ℕ → ℕ → Option ℚ) (templates weights : ℕ → ℕ → ℕ → ℕ → ℚ)
    (inH inW cin : ℕ) (g : Geometry) (mode : SimMode)
    (fudge oob l2p : ℚ) (inan : Bool) (b c i j : ℕ) :
    forwardElem inp templates weights inH inW cin g mode
        ⟨true, fudge, inan, oob, l2p⟩ b c i j =
      Option.map
        (fun s => s + -(1 / 2 : ℚ) *
          (((if inan then
              ((offsets cin g.blockH g.blockW).filter
                (fun x => (patchValue inp inH inW oob g b x.1 i j x.2.1 x.2.2).isSome)).card
            else cin * g.blockH * g.blockW : ℕ) : ℚ)) * l2p)
        (forwardElem inp templates weights inH inW cin g mode
          ⟨false, fudge, inan, oob, l2p⟩ b c i j) := by
  rw [forwardElem_eq, forwardElem_eq]
  cases hA : (!inan && ((offsetsList cin g.blockH g.blockW).any fun x =>
      (patchValue inp inH inW oob g b x.1 i j x.2.1 x.2.2).isNone)) with
  | true =>
    simp
  | false =>
    simp only [Bool.false_eq_true, if_false, Option.map_some']
    refine congrArg some ?_
    have hcount : ((offsetsList cin g.blockH g.blockW).map fun x =>
        if (patchValue inp inH inW oob g b x.1 i j x.2.1 x.2.2).isSome
        then 1 else 0).sum =
        (if inan then
          ((offsets cin g.blockH g.blockW).filter
            (fun x => (patchValue inp inH inW oob g b x.1 i j x.2.1 x.2.2).isSome)).card
        else cin * g.blockH * g.blockW) := by
      cases hin : inan with
      | true => rw [if_pos rfl, count_eq_card_filter]
      | false =>
        rw [if_neg (by simp)]
        rw [count_eq_card_filter]
        have hall : ∀ x ∈ offsets cin g.blockH g.blockW,
            (patchValue inp inH inW oob g b x.1 i j x.2.1 x.2.2).isSome = true := by
          intro x hx
          rw [hin] at hA
          simp only [Bool.not_false, Bool.true_and] at hA
          have hnn := List.any_eq_false.mp hA x
            ((mem_offsetsList cin g.blockH g.blockW x).mpr
              ((mem_offsets cin g.blockH g.blockW x).mp hx))
          cases hpv : patchValue inp inH inW oob g b x.1 i j x.2.1 x.2.2 with
          | some v => rfl
          | none => rw [hpv] at hnn; simp at hnn
        rw [Finset.filter_true_of_mem hall]
        rw [offsets]
        simp [Finset.card_product, mul_assoc]
    simp [normTerm, hcount]

end SimnetsTF
